import Mathlib

/-!
Verification development for the personal-context record store.

The definitions below are a shallow embedding of the TypeScript sources:
- `src/managers/EncryptionManager.ts` (versioned key derivation and AES wrapping),
- `src/managers/FileManager.ts` (serialization, atomic writes, path mapping),
- `src/managers/OTPManager.ts` (token and backup-code verification),
- `src/managers/PermissionManager.ts` (scope registry and custom-scope persistence),
- `src/core/Context.ts` / `src/core/Validation.ts` (the session gate and scope checks),
- `src/tools/personalInfo/savePersonalInfo.ts` and `deletePersonalInfo.ts`.

External library primitives (CryptoJS PBKDF2/AES, `yaml.stringify`, `JSON.stringify`,
the otplib TOTP comparison) are modelled as opaque function parameters; everything
the repository itself computes is translated directly.  JavaScript truthiness on
optional strings and numbers (`x || d`) is modelled by the `jsOr` helpers.
Filesystem effects are modelled as explicit operation traces (`FsOp`) applied to a
functional store `String → Option String`.
-/

/-- JS `s || d` for an optional string: `undefined` and `""` are falsy. -/
def jsOrS (o : Option String) (d : String) : String :=
  match o with
  | some s => if s = "" then d else s
  | none => d

/-- JS `n || d` for an optional number: `undefined` and `0` are falsy. -/
def jsOrNat (o : Option Nat) (d : Nat) : Nat :=
  match o with
  | some n => if n = 0 then d else n
  | none => d

/-- JS truthiness filter on an optional string (`if (x) ...`). -/
def jsTruthy (o : Option String) : Option String :=
  match o with
  | some s => if s = "" then none else some s
  | none => none

/-- A single-quote character, used when building the error messages of
`src/core/Validation.ts` (e.g. Access denied: scope ... is not allowed). -/
def squote : String := String.singleton (Char.ofNat 39)

/- ## Encryption engine (`src/managers/EncryptionManager.ts`) -/

/-- `EncryptionConfig` from `EncryptionConfigSchema` (defaults included). -/
structure EncryptionConfig where
  algorithm : String := "AES"
  keySize : Nat := 256
  ivSize : Nat := 128
  iterations : Nat := 10000
  enabled : Bool := false
deriving Repr, DecidableEq

/-- The `EncryptedData` interface.  `salt`, `iv` and `data` carry the CryptoJS
string serializations; hex round-tripping (`WordArray.toString` / `Hex.parse`)
is the identity at this level. -/
structure EncryptedData where
  data : String
  iv : String
  salt : String
  algorithm : String
  keySize : Nat
  iterations : Nat
  timestamp : String
  encryptionVersion : Option Nat
deriving Repr, DecidableEq

/-- The `DecryptionOptions` interface. -/
structure DecryptionOptions where
  secret : String
  otpToken : Option String := none
  userId : Option String := none
deriving Repr, DecidableEq

/-- The CryptoJS primitives used by `EncryptionManager`, abstracted:
`pbkdf2 keyMaterial salt keySizeWords iterations`, and AES-CBC
encryption/decryption `aes... payload key iv`. -/
structure CryptoPrims where
  pbkdf2 : String → String → Nat → Nat → String
  aesEncrypt : String → String → String → String
  aesDecrypt : String → String → String → String

/-- Contract of the AES primitive pair: decrypting with the same key and IV
recovers the plaintext. -/
def AesRoundTrip (C : CryptoPrims) : Prop :=
  ∀ p k iv, C.aesDecrypt (C.aesEncrypt p k iv) k iv = p

/-- `deriveStableKey` (v2): key material is `masterSecret` plus the user id when
truthy; OTP tokens are deliberately excluded.  The `iterations` argument falls
back to the config value when absent or `0` (JS `iterations || this.config.iterations`). -/
def deriveStableKey (C : CryptoPrims) (cfg : EncryptionConfig)
    (masterSecret salt : String) (userId : Option String) (iterations : Option Nat) : String :=
  let keyMaterial := masterSecret ++ (jsTruthy userId).getD ""
  C.pbkdf2 keyMaterial salt (cfg.keySize / 32) (jsOrNat iterations cfg.iterations)

/-- `deriveLegacyKey` (v1): additionally folds a truthy OTP token into the key
material, before the user id. -/
def deriveLegacyKey (C : CryptoPrims) (cfg : EncryptionConfig)
    (masterSecret salt : String) (otpToken userId : Option String) (iterations : Option Nat) : String :=
  let keyMaterial := masterSecret ++ (jsTruthy otpToken).getD "" ++ (jsTruthy userId).getD ""
  C.pbkdf2 keyMaterial salt (cfg.keySize / 32) (jsOrNat iterations cfg.iterations)

/-- `EncryptionManager.encryptData`.  The random `salt` and `iv` and the wall
clock `ts` are explicit inputs.  Always tags the payload with
`encryptionVersion = 2` and derives the key with `deriveStableKey` (no OTP). -/
def encryptData (C : CryptoPrims) (cfg : EncryptionConfig)
    (plaintext : String) (options : DecryptionOptions)
    (salt iv ts : String) : Except String EncryptedData :=
  if cfg.enabled then
    let key := deriveStableKey C cfg options.secret salt options.userId none
    Except.ok
      { data := C.aesEncrypt plaintext key iv
        iv := iv
        salt := salt
        algorithm := cfg.algorithm
        keySize := cfg.keySize
        iterations := cfg.iterations
        timestamp := ts
        encryptionVersion := some 2 }
  else
    Except.error "Encryption is not enabled"

/-- `EncryptionManager.decryptData`: dispatches on `encryptionVersion === 2`;
v2 uses the stable key (OTP token ignored), anything else the legacy key.
The stored `iterations` value (with `|| config.iterations` fallback) feeds
the derivation.  Empty recovered plaintext is an error. -/
def decryptData (C : CryptoPrims) (cfg : EncryptionConfig)
    (e : EncryptedData) (options : DecryptionOptions) : Except String String :=
  if cfg.enabled then
    let key :=
      if e.encryptionVersion = some 2 then
        deriveStableKey C cfg options.secret e.salt options.userId (some e.iterations)
      else
        deriveLegacyKey C cfg options.secret e.salt options.otpToken options.userId (some e.iterations)
    let plaintext := C.aesDecrypt e.data key e.iv
    if plaintext = "" then
      Except.error "Failed to decrypt data - invalid key or corrupted data"
    else
      Except.ok plaintext
  else
    Except.error "Encryption is not enabled"

/- ## Record serialization (`FileManager.createFileContent`) -/

/-- Frontmatter of a `PersonalInfoFile` (from `PersonalInfoFileSchema`). -/
structure Frontmatter where
  scope : String
  category : String
  subcategory : Option String
  created : String
  updated : String
  tags : List String
deriving Repr, DecidableEq

/-- `PersonalInfoFile` from `src/types/schemas.ts`. -/
structure PersonalInfoFile where
  frontmatter : Frontmatter
  content : String
  filePath : String
deriving Repr, DecidableEq

/-- `FileManager.createFileContent`, with the output of `yaml.stringify` on the
frontmatter supplied as `yamlContent`. -/
def createFileContent (yamlContent content : String) : String :=
  "---\n" ++ yamlContent ++ "---\n\n" ++ content ++ "\n"

theorem createFileContent_ne_empty (y c : String) : createFileContent y c ≠ "" := by
  intro h
  have hlen := congrArg String.length h
  simp [createFileContent, String.length_append] at hlen
  exact absurd hlen.1.1.1.1 (by decide)

theorem jsOrNat_some_self (d : Nat) : jsOrNat (some d) d = d := by
  cases d <;> simp [jsOrNat]

theorem jsOrNat_none (d : Nat) : jsOrNat none d = d := rfl

/- ## Path mapping (`FileManager.getFilePath`) -/

/-- `path.join` on two segments (no normalization is needed for the inputs the
store produces). -/
def joinPath (a b : String) : String := a ++ "/" ++ b

/-- `FileManager.getFilePath`: `<dataDir>/<scope>/<category>[-<subcategory>].md`. -/
def getFilePath (dataDir scope category : String) (subcategory : Option String) : String :=
  let filename :=
    match subcategory with
    | some s => category ++ "-" ++ s ++ ".md"
    | none => category ++ ".md"
  joinPath (joinPath dataDir scope) filename

/-- C10: the record path function is not injective — the category `a-b` with no
subcategory and the category `a` with subcategory `b` map to the same file, so
two distinct key tuples can silently overwrite each other. -/
theorem getFilePath_not_injective :
    ("a-b", (none : Option String)) ≠ ("a", some "b") ∧
    getFilePath "data" "public" "a-b" none = getFilePath "data" "public" "a" (some "b") := by
  constructor
  · decide
  · rfl

/- ## C1: v2 encryption round trip -/

/-- C1: for every serialized record (frontmatter plus body), secret, and optional
user id, decrypting the payload produced by current-version (v2) encryption with
the same secret and user id returns exactly the record — for any OTP token
supplied at either end, and with no dependence on time (`decryptData` takes no
clock input; only the metadata timestamp of encryption is recorded). -/
theorem encryptData_decryptData_roundtrip
    (C : CryptoPrims) (hC : AesRoundTrip C)
    (cfg : EncryptionConfig) (hcfg : cfg.enabled = true)
    (yamlContent body secret : String) (userId otp1 otp2 : Option String)
    (salt iv ts : String) :
    (encryptData C cfg (createFileContent yamlContent body)
        ⟨secret, otp1, userId⟩ salt iv ts).bind
      (fun e => decryptData C cfg e ⟨secret, otp2, userId⟩)
    = Except.ok (createFileContent yamlContent body) := by
  simp only [encryptData, hcfg, if_true, Except.bind, decryptData]
  simp only [deriveStableKey, jsOrNat_some_self, jsOrNat_none]
  rw [hC]
  simp [createFileContent_ne_empty]

/-- Witness for C1 at concrete inputs, using an identity cipher pair that
satisfies the AES round-trip contract. -/
theorem encryptData_decryptData_roundtrip_witness :
    (encryptData ⟨fun km _ _ _ => km, fun p _ _ => p, fun c _ _ => c⟩
        { enabled := true }
        (createFileContent "scope: public\n" "hello")
        ⟨"master-secret", some "123456", some "alice"⟩ "SALT" "IV" "TS").bind
      (fun e => decryptData ⟨fun km _ _ _ => km, fun p _ _ => p, fun c _ _ => c⟩
        { enabled := true } e ⟨"master-secret", some "999999", some "alice"⟩)
    = Except.ok (createFileContent "scope: public\n" "hello") :=
  encryptData_decryptData_roundtrip
    ⟨fun km _ _ _ => km, fun p _ _ => p, fun c _ _ => c⟩
    (fun _ _ _ => rfl) { enabled := true } rfl
    "scope: public\n" "hello" "master-secret" (some "alice")
    (some "123456") (some "999999") "SALT" "IV" "TS"

/- ## C2: the session gate (`src/core/Context.ts` getDecryptionOptions,
     `src/core/Validation.ts` validateOTPSession) -/

/-- The in-memory `OTPSession` (`currentOTPSession` in `ServerContext`). -/
structure OTPSession where
  token : String
  expires : Nat
  userId : Option String
deriving Repr, DecidableEq

/-- The OTP-required error thrown by `getDecryptionOptions` and
`validateOTPSession`. -/
def otpRequiredMsg : String :=
  "🔒 OTP verification required. Please use verify_otp tool first to access encrypted data."

/-- The error thrown when encryption is on but OTP was never configured. -/
def otpNotSetupMsg : String :=
  "🔒 Encryption is enabled but OTP is not set up. Please use setup_otp tool first to secure your data."

/-- `getDecryptionOptions` from `src/core/Context.ts`: the single choke point
computing decryption options for every data-touching call.  `nowMs` is
`Date.now()`; the session is rejected exactly when absent or
`Date.now() > expires`.  The configured encryption key falls back to
`"default-secret"` when absent or empty (JS `||`). -/
def getDecryptionOptions (encEnabled otpEnabled : Bool) (session : Option OTPSession)
    (nowMs : Nat) (encryptionKey : Option String) : Except String (Option DecryptionOptions) :=
  if encEnabled then
    if ¬ otpEnabled then
      Except.error otpNotSetupMsg
    else
      match session with
      | none => Except.error otpRequiredMsg
      | some s =>
        if nowMs > s.expires then
          Except.error otpRequiredMsg
        else
          Except.ok (some
            { secret := jsOrS encryptionKey "default-secret"
              otpToken := some s.token
              userId := s.userId })
  else
    Except.ok none

/-- C2 (amended): with encryption enabled and OTP unconfigured every
data-touching call fails with the OTP-not-set-up error; with OTP configured but
no session, or a session with `expires < now`, it fails with the OTP-required
error; a session is accepted if and only if `now ≤ expires` (the code treats the
boundary instant `now = expires` as still valid, unlike the claim's strict
`now < expiresAt`); with encryption disabled the call proceeds with no
decryption options. -/
theorem getDecryptionOptions_spec (otpEnabled : Bool) (session : Option OTPSession)
    (nowMs : Nat) (encryptionKey : Option String) :
    (otpEnabled = false →
      getDecryptionOptions true otpEnabled session nowMs encryptionKey
        = Except.error otpNotSetupMsg) ∧
    (otpEnabled = true → session = none →
      getDecryptionOptions true otpEnabled session nowMs encryptionKey
        = Except.error otpRequiredMsg) ∧
    (otpEnabled = true → ∀ s, session = some s → s.expires < nowMs →
      getDecryptionOptions true otpEnabled session nowMs encryptionKey
        = Except.error otpRequiredMsg) ∧
    (otpEnabled = true → ∀ s, session = some s → nowMs ≤ s.expires →
      getDecryptionOptions true otpEnabled session nowMs encryptionKey
        = Except.ok (some
            { secret := jsOrS encryptionKey "default-secret"
              otpToken := some s.token
              userId := s.userId })) ∧
    (getDecryptionOptions false otpEnabled session nowMs encryptionKey = Except.ok none) := by
  refine ⟨?_, ?_, ?_, ?_, ?_⟩
  · intro h; subst h; simp [getDecryptionOptions]
  · intro h hs; subst h; subst hs; simp [getDecryptionOptions]
  · intro h s hs hlt; subst h; subst hs
    simp [getDecryptionOptions, hlt]
  · intro h s hs hle; subst h; subst hs
    simp [getDecryptionOptions, Nat.not_lt.mpr hle]
  · simp [getDecryptionOptions]

/-- Witness for C2's amended theorem at concrete inputs. -/
theorem getDecryptionOptions_spec_witness :
    getDecryptionOptions true true (some ⟨"111222", 500, some "alice"⟩) 200 (some "key")
      = Except.ok (some { secret := "key", otpToken := some "111222", userId := some "alice" }) :=
  (getDecryptionOptions_spec true (some ⟨"111222", 500, some "alice"⟩) 200 (some "key")).2.2.2.1
    rfl ⟨"111222", 500, some "alice"⟩ rfl (by decide)

/-- C2 counterexample: at the boundary instant `now = expires` the claim calls
the session expired (`¬ (now < expiresAt)`) and demands the OTP-required error,
but the gate accepts the session and returns decryption options. -/
theorem getDecryptionOptions_boundary_counterexample :
    ¬ (100 < 100) ∧
    getDecryptionOptions true true (some ⟨"111222", 100, none⟩) 100 none
      = Except.ok (some { secret := "default-secret", otpToken := some "111222", userId := none }) ∧
    getDecryptionOptions true true (some ⟨"111222", 100, none⟩) 100 none
      ≠ Except.error otpRequiredMsg := by
  refine ⟨by decide, rfl, ?_⟩
  intro h
  exact Except.noConfusion h

/- ## OTP engine (`src/managers/OTPManager.ts`) -/

/-- `OTPConfig` from `OTPConfigSchema`. -/
structure OTPConfig where
  secret : String
  issuer : String := "Personal MCP Server"
  label : String := "Personal Data Access"
  digits : Nat := 6
  period : Nat := 30
  window : Nat := 1
  algorithm : String := "sha1"
  enabled : Bool := false
deriving Repr, DecidableEq

/-- One entry of the persisted backup-code list. -/
structure BackupCode where
  code : String
  used : Bool
  usedAt : Option String := none
deriving Repr, DecidableEq

/-- The persisted OTP document (`otp-config.json`): the configuration plus the
backup-code list (creation metadata omitted — `verifyBackupCode` passes it
through unchanged). -/
structure OTPFileData where
  config : Option OTPConfig
  backupCodes : List BackupCode
deriving Repr, DecidableEq

/-- The otplib options `verifyToken` sets before each comparison. -/
structure TotpParams where
  digits : Nat
  period : Nat
  algorithm : String
  window : Nat
deriving Repr, DecidableEq

/-- The `OTPVerificationResult` interface. -/
structure OTPVerificationResult where
  isValid : Bool
  timeRemaining : Option Nat := none
  token : Option String := none
deriving Repr, DecidableEq

/-- JS `toUpperCase`, mapping each character to upper case. -/
def jsToUpper (s : String) : String :=
  String.mk (s.data.map Char.toUpper)

/-- `token.replace(/\s/g, "")`: strip all whitespace. -/
def cleanTok (s : String) : String :=
  String.mk (s.data.filter (fun c => !c.isWhitespace))

/-- The match predicate of `verifyBackupCode`:
`bc.code === code.toUpperCase() && !bc.used`. -/
def bcMatches (upper : String) (bc : BackupCode) : Bool :=
  bc.code == upper && !bc.used

/-- Marking step of `verifyBackupCode`: the first unused entry matching the
uppercased code is flagged used and timestamped (`usedAt`). -/
def markFirstUsed (upper ts : String) : List BackupCode → List BackupCode
  | [] => []
  | bc :: rest =>
    if bcMatches upper bc then
      { bc with used := true, usedAt := some ts } :: rest
    else
      bc :: markFirstUsed upper ts rest

/-- `OTPManager.verifyBackupCode`: reads the persisted document (`none` when the
config file is missing), matches unused codes case-insensitively, marks the
first match used, and persists the updated document before returning.  The
first component is the on-disk state after the call. -/
def verifyBackupCode (disk : Option OTPFileData) (code ts : String) :
    Option OTPFileData × OTPVerificationResult :=
  match disk with
  | none => (none, { isValid := false })
  | some d =>
    let upper := jsToUpper code
    match d.backupCodes.find? (bcMatches upper) with
    | some _ =>
      (some { d with backupCodes := markFirstUsed upper ts d.backupCodes },
        { isValid := true, token := some code })
    | none => (some d, { isValid := false })

/-- `OTPManager.verifyToken`.  `authVerify` abstracts the otplib
`authenticator.verify` comparison under the options set just before the call;
`nowMs` is `Date.now()` and `ts` the ISO timestamp used for backup codes.  On a
primary-window success, `timeRemaining` is computed directly as
`(period - now mod period) * 1000`; on failure a second comparison with
`window = 5` is computed for diagnostics only and the result is invalid. -/
def verifyToken (authVerify : TotpParams → String → String → Bool)
    (config : Option OTPConfig) (disk : Option OTPFileData)
    (nowMs : Nat) (ts : String) (token : String) (useBackupCode : Bool) :
    Except String (Option OTPFileData × OTPVerificationResult) :=
  match config with
  | none => Except.error "OTP is not enabled"
  | some c =>
    if ¬ c.enabled then
      Except.error "OTP is not enabled"
    else
      let cleanToken := cleanTok token
      if useBackupCode then
        Except.ok (verifyBackupCode disk cleanToken ts)
      else
        let isValid := authVerify ⟨c.digits, c.period, c.algorithm, c.window⟩ cleanToken c.secret
        if isValid then
          let now := nowMs / 1000
          let timeRemaining := (c.period - now % c.period) * 1000
          Except.ok (disk, { isValid := true, timeRemaining := some timeRemaining,
                             token := some cleanToken })
        else
          let _isValidLargeWindow :=
            authVerify ⟨c.digits, c.period, c.algorithm, 5⟩ cleanToken c.secret
          Except.ok (disk, { isValid := false })

/-- C6: the verification verdict equals exactly the primary otplib comparison at
the configured window; the diagnostic wider-window (`window = 5`) comparison is
never accepted — whenever the primary check fails the result has
`isValid = false` no matter what the wider comparison returns (the theorem holds
for every comparison function, including ones answering `true` at window 5 and
`false` at the configured window). -/
theorem verifyToken_primary_window_only
    (authVerify : TotpParams → String → String → Bool)
    (c : OTPConfig) (hc : c.enabled = true)
    (disk : Option OTPFileData) (nowMs : Nat) (ts token : String) :
    (verifyToken authVerify (some c) disk nowMs ts token false).map
        (fun p => p.2.isValid)
      = Except.ok (authVerify ⟨c.digits, c.period, c.algorithm, c.window⟩
          (cleanTok token) c.secret) := by
  cases hv : authVerify ⟨c.digits, c.period, c.algorithm, c.window⟩ (cleanTok token) c.secret <;>
    simp [verifyToken, hc, hv, Except.map]

/-- Witness for C6: a comparison function that accepts only at window 5 (so the
wider diagnostic check succeeds) still yields an invalid result, because the
primary window-1 comparison fails. -/
theorem verifyToken_primary_window_only_witness :
    (verifyToken (fun tp _ _ => tp.window == 5)
        (some { secret := "SECRET", enabled := true }) none 0 "TS" "123456" false).map
        (fun p => p.2.isValid)
      = Except.ok false :=
  verifyToken_primary_window_only (fun tp _ _ => tp.window == 5)
    { secret := "SECRET", enabled := true } rfl none 0 "TS" "123456"

/-- C9 (amended): whenever a (non-backup) token verification succeeds, the
returned `timeRemaining` is computed directly from the clock and the configured
period as `(period - (now mod period)) * 1000` — the seconds-valued formula
`period - (now mod period)` converted to milliseconds, with
`now = Date.now() / 1000` in seconds — rather than taken from a library
counter. -/
theorem verifyToken_timeRemaining
    (authVerify : TotpParams → String → String → Bool)
    (c : OTPConfig) (hc : c.enabled = true)
    (disk : Option OTPFileData) (nowMs : Nat) (ts token : String)
    (hv : authVerify ⟨c.digits, c.period, c.algorithm, c.window⟩
        (cleanTok token) c.secret = true) :
    verifyToken authVerify (some c) disk nowMs ts token false
      = Except.ok (disk,
          { isValid := true
            timeRemaining := some ((c.period - (nowMs / 1000) % c.period) * 1000)
            token := some (cleanTok token) }) := by
  simp [verifyToken, hc, hv]

/-- Witness for C9's amended theorem at concrete inputs. -/
theorem verifyToken_timeRemaining_witness :
    verifyToken (fun _ _ _ => true)
        (some { secret := "SECRET", enabled := true }) none 7000 "TS" "123456" false
      = Except.ok (none,
          { isValid := true, timeRemaining := some 23000, token := some "123456" }) := by
  have h := verifyToken_timeRemaining (fun _ _ _ => true)
    { secret := "SECRET", enabled := true } rfl none 7000 "TS" "123456" rfl
  simpa using h

/-- C9 counterexample: at `Date.now() = 0` with the default 30-second period the
code returns `timeRemaining = 30000` (milliseconds), not
`period - (now mod period) = 30` as the claim's formula reads literally. -/
theorem verifyToken_timeRemaining_counterexample :
    (verifyToken (fun _ _ _ => true)
        (some { secret := "SECRET", enabled := true }) none 0 "TS" "123456" false).map
        (fun p => p.2.timeRemaining)
      = Except.ok (some 30000) ∧
    some 30000 ≠ some (30 - (0 / 1000) % 30) := by
  constructor
  · rfl
  · decide

/- ## C7: backup-code single use -/

theorem bcMatches_iff (u : String) (bc : BackupCode) :
    bcMatches u bc = true ↔ bc.code = u ∧ bc.used = false := by
  simp [bcMatches, Bool.and_eq_true, beq_iff_eq, Bool.not_eq_true']

/-- The entry marked by `markFirstUsed` is present, used, and timestamped. -/
theorem markFirstUsed_mem (u ts : String) (l : List BackupCode) (bc0 : BackupCode)
    (h : l.find? (bcMatches u) = some bc0) :
    ∃ bc ∈ markFirstUsed u ts l, bc.code = u ∧ bc.used = true ∧ bc.usedAt = some ts := by
  induction l with
  | nil => simp at h
  | cons hd tl ih =>
    by_cases hm : bcMatches u hd
    · refine ⟨{ hd with used := true, usedAt := some ts }, ?_, ?_, rfl, rfl⟩
      · simp [markFirstUsed, hm]
      · exact ((bcMatches_iff u hd).mp hm).1
    · rw [List.find?_cons_of_neg _ hm] at h
      obtain ⟨bc, hmem, hprop⟩ := ih h
      exact ⟨bc, by simp [markFirstUsed, hm, hmem], hprop⟩

/-- After marking, no unused entry with the same (uppercased) code remains —
provided the persisted code list has no duplicate code strings. -/
theorem find?_markFirstUsed_none (u ts : String) (l : List BackupCode) (bc0 : BackupCode)
    (hnd : (l.map (fun bc => bc.code)).Nodup)
    (h : l.find? (bcMatches u) = some bc0) :
    (markFirstUsed u ts l).find? (bcMatches u) = none := by
  induction l with
  | nil => simp at h
  | cons hd tl ih =>
    simp only [List.map_cons, List.nodup_cons] at hnd
    by_cases hm : bcMatches u hd
    · have hcode : hd.code = u := ((bcMatches_iff u hd).mp hm).1
      have hmarked : bcMatches u { hd with used := true, usedAt := some ts } = false := by
        simp [bcMatches]
      rw [markFirstUsed, if_pos hm]
      rw [List.find?_cons_of_neg _ (by simp [hmarked])]
      refine List.find?_eq_none.mpr (fun bc hbc hmatch => ?_)
      have hbcu : bc.code = u := ((bcMatches_iff u bc).mp hmatch).1
      apply hnd.1
      have hmem : bc.code ∈ List.map (fun b => b.code) tl :=
        List.mem_map_of_mem (fun b => b.code) hbc
      rw [hbcu] at hmem
      rw [hcode]
      exact hmem
    · rw [List.find?_cons_of_neg _ hm] at h
      rw [markFirstUsed, if_neg hm]
      rw [List.find?_cons_of_neg _ hm]
      exact ih hnd.2 h

/-- C7: when a backup-code verification accepts a code, the persisted document
returned by the call has that (uppercased) code marked used with the call's
timestamp, and — because the on-disk state is updated before the call returns —
every later verification of the same code against the persisted state (as after
a process restart that reloads it) is invalid.  The hypothesis asks the
persisted code strings to be pairwise distinct, which holds for any list of
distinct generated codes. -/
theorem verifyBackupCode_single_use (d : OTPFileData) (code ts : String)
    (hnd : (d.backupCodes.map (fun bc => bc.code)).Nodup)
    (hv : (verifyBackupCode (some d) code ts).2.isValid = true) :
    ∃ d', (verifyBackupCode (some d) code ts).1 = some d' ∧
      (∃ bc ∈ d'.backupCodes, bc.code = jsToUpper code ∧ bc.used = true ∧ bc.usedAt = some ts) ∧
      ∀ ts', ((verifyBackupCode (some d') code ts').2).isValid = false := by
  rcases hfind : d.backupCodes.find? (bcMatches (jsToUpper code)) with _ | bc0
  · exfalso
    rw [verifyBackupCode] at hv
    simp only [hfind] at hv
    simp at hv
  · refine ⟨{ d with backupCodes := markFirstUsed (jsToUpper code) ts d.backupCodes }, ?_, ?_, ?_⟩
    · rw [verifyBackupCode]
      simp only [hfind]
    · exact markFirstUsed_mem (jsToUpper code) ts d.backupCodes bc0 hfind
    · intro ts'
      rw [verifyBackupCode]
      simp only [find?_markFirstUsed_none (jsToUpper code) ts d.backupCodes bc0 hnd hfind]

/-- Witness for C7: the code `abcd1234`, accepted once (case-insensitively), is
rejected when retried against the persisted state. -/
theorem verifyBackupCode_single_use_witness :
    ((verifyBackupCode (some ⟨none, [⟨"ABCD1234", true, some "T1"⟩]⟩) "abcd1234" "T2").2).isValid
      = false := by
  obtain ⟨d', h1, _h2, h3⟩ :=
    verifyBackupCode_single_use ⟨none, [⟨"ABCD1234", false, none⟩]⟩ "abcd1234" "T1"
      (by decide) (by decide)
  have hc : (verifyBackupCode (some ⟨none, [⟨"ABCD1234", false, none⟩]⟩) "abcd1234" "T1").1
      = some ⟨none, [⟨"ABCD1234", true, some "T1"⟩]⟩ := by decide
  rw [h1] at hc
  cases Option.some.inj hc
  exact h3 "T2"

/- ## Filesystem effect traces (for `FileManager.writeMarkdownFile` and
     `PermissionManager` persistence) -/

/-- Primitive filesystem effects performed by the store (`fs-extra` calls). -/
inductive FsOp where
  | write (path content : String)
  | move (src dst : String)
  | remove (path : String)
  | ensureDir (path : String)
deriving Repr, DecidableEq

/-- A filesystem state: file path to content.  Directories are not files, so
`ensureDir` leaves the state unchanged. -/
def Fs := String → Option String

/-- Effect of one primitive operation (`fs.writeFile`, `fs.move`, `fs.remove`,
`fs.ensureDir`).  fs-extra (^11.2.0) `move` is called with its default
`overwrite: false`: when the destination already exists it rejects with
"dest already exists." and mutates nothing — the source file stays in place. -/
def applyOp (fs : Fs) : FsOp → Fs
  | FsOp.write p c => fun q => if q = p then some c else fs q
  | FsOp.move src dst =>
    match fs src with
    | some c =>
      if fs dst = none then
        fun q => if q = dst then some c else if q = src then none else fs q
      else
        fs
    | none => fs
  | FsOp.remove p => fun q => if q = p then none else fs q
  | FsOp.ensureDir _ => fs

/-- Effect of a sequence of operations, first to last. -/
def applyOps (fs : Fs) (ops : List FsOp) : Fs := ops.foldl applyOp fs

/-- Split a character list at slashes (structural `String.splitOn "/"`). -/
def splitSlash : List Char → List (List Char)
  | [] => [[]]
  | c :: rest =>
    match splitSlash rest with
    | [] => [[]]
    | g :: gs => if c = Char.ofNat 47 then [] :: g :: gs else (c :: g) :: gs

/-- Join path segments with slashes. -/
def joinSlash : List String → String
  | [] => ""
  | [x] => x
  | x :: y :: xs => x ++ "/" ++ joinSlash (y :: xs)

/-- `path.dirname` for slash-separated paths. -/
def dirnameStr (p : String) : String :=
  joinSlash (((splitSlash p.data).map (fun g => String.mk g)).dropLast)

theorem tmp_path_ne (p : String) : p ++ ".tmp" ≠ p := by
  intro h
  have h2 := congrArg String.length h
  rw [String.length_append] at h2
  have h4 : (".tmp" : String).length = 4 := rfl
  omega

/- ## `FileManager.writeMarkdownFile` (byte level) -/

/-- `EncryptionManager.encryptFileContent`: plain content when encryption is
disabled, otherwise the `JSON.stringify` of the encrypted payload
(`jsonEnc` abstracts the JSON encoder). -/
def encryptFileContent (C : CryptoPrims) (jsonEnc : EncryptedData → String)
    (cfg : EncryptionConfig) (content : String) (options : DecryptionOptions)
    (salt iv ts : String) : Except String String :=
  if ¬ cfg.enabled then
    Except.ok content
  else
    (encryptData C cfg content options salt iv ts).map jsonEnc

/-- The content pipeline of `writeMarkdownFile`: serialize frontmatter+body via
`createFileContent` (with `yaml.stringify` abstracted as `yamlStringify`), then
encrypt exactly when encryption is enabled and options were given. -/
def finalWriteContent (C : CryptoPrims) (jsonEnc : EncryptedData → String)
    (yamlStringify : Frontmatter → String) (cfg : EncryptionConfig)
    (salt iv ts : String) (d : PersonalInfoFile)
    (encryptionOptions : Option DecryptionOptions) : Except String String :=
  let plain := createFileContent (yamlStringify d.frontmatter) d.content
  match encryptionOptions with
  | some opts =>
    if cfg.enabled then encryptFileContent C jsonEnc cfg plain opts salt iv ts
    else Except.ok plain
  | none => Except.ok plain

/-- `FileManager.writeMarkdownFile`: validate the record (the
`PersonalInfoFileSchema.parse` gate is enforced here by the shape of the
`PersonalInfoFile` type), ensure the directory, build the (possibly encrypted)
content, enforce the byte-size cap, then write `<path>.tmp` and call
`fs.move(tempPath, filePath)`.  `fs` is the filesystem state before the call:
fs-extra's `move` keeps its default `overwrite: false`, so when the destination
already exists the move rejects and the surrounding catch block rethrows
`Failed to write file <path>: dest already exists.` — the attempted operations
are returned together with that outcome. -/
def writeMarkdownFile (C : CryptoPrims) (jsonEnc : EncryptedData → String)
    (yamlStringify : Frontmatter → String) (cfg : EncryptionConfig)
    (maxFileSize : Nat) (salt iv ts : String) (fs : Fs) (filePath : String)
    (d : PersonalInfoFile) (encryptionOptions : Option DecryptionOptions) :
    List FsOp × Except String Unit :=
  match finalWriteContent C jsonEnc yamlStringify cfg salt iv ts d encryptionOptions with
  | Except.error e => ([FsOp.ensureDir (dirnameStr filePath)], Except.error e)
  | Except.ok content =>
    if content.utf8ByteSize > maxFileSize then
      ([FsOp.ensureDir (dirnameStr filePath)],
        Except.error ("Content too large (" ++ toString content.utf8ByteSize
          ++ " bytes, max: " ++ toString maxFileSize ++ ")"))
    else
      ([FsOp.ensureDir (dirnameStr filePath),
        FsOp.write (filePath ++ ".tmp") content,
        FsOp.move (filePath ++ ".tmp") filePath],
        if fs filePath = none then
          Except.ok ()
        else
          Except.error ("Failed to write file " ++ filePath ++ ": dest already exists."))

/-- C5 (code bug): the serialization, conditional encryption, size-cap check
and temp-file write match the claim, but the final `fs.move(tempPath, filePath)`
keeps fs-extra's default `overwrite: false`, so whenever a record already exists
at the destination — every update — the rename is rejected with
"dest already exists.": the call fails, the destination keeps its prior
content, and the fully written `<path>.tmp` is left behind.  Evaluated here at
a concrete update of an existing record: the result is the wrapped move error,
the destination still holds the old serialized record after the attempted
operations, and the new content sits in the stray temp file. -/
theorem writeMarkdownFile_update_move_fails :
    writeMarkdownFile ⟨fun km _ _ _ => km, fun p _ _ => p, fun c _ _ => c⟩
        (fun _ => "") (fun _ => "scope: public\n") {} 1048576 "S" "I" "T"
        (fun q => if q = "data/public/phone.md" then some "OLD" else none)
        "data/public/phone.md"
        ⟨⟨"public", "phone", none, "2024-01-01T00:00:00Z", "2025-01-01T00:00:00Z", []⟩,
          "555-1234", ""⟩ none
      = ([FsOp.ensureDir "data/public",
          FsOp.write "data/public/phone.md.tmp" (createFileContent "scope: public\n" "555-1234"),
          FsOp.move "data/public/phone.md.tmp" "data/public/phone.md"],
         Except.error "Failed to write file data/public/phone.md: dest already exists.") ∧
    applyOps (fun q => if q = "data/public/phone.md" then some "OLD" else none)
        [FsOp.ensureDir "data/public",
         FsOp.write "data/public/phone.md.tmp" (createFileContent "scope: public\n" "555-1234"),
         FsOp.move "data/public/phone.md.tmp" "data/public/phone.md"]
        "data/public/phone.md" = some "OLD" ∧
    applyOps (fun q => if q = "data/public/phone.md" then some "OLD" else none)
        [FsOp.ensureDir "data/public",
         FsOp.write "data/public/phone.md.tmp" (createFileContent "scope: public\n" "555-1234"),
         FsOp.move "data/public/phone.md.tmp" "data/public/phone.md"]
        "data/public/phone.md.tmp" = some (createFileContent "scope: public\n" "555-1234") := by
  refine ⟨rfl, rfl, rfl⟩

/- ## Scope registry (`src/managers/PermissionManager.ts`,
     `src/utils/scopeParser.ts`, `src/types/schemas.ts`) -/

/-- The names of the six `BUILT_IN_SCOPES`. -/
def builtInScopeNames : List String :=
  ["public", "contact", "location", "personal", "memories", "sensitive"]

/-- `isBuiltInScope` from `src/utils/scopeParser.ts`. -/
def isBuiltInScope (name : String) : Bool :=
  builtInScopeNames.contains name

/-- A custom scope definition (`CustomScopeSchema`). -/
structure CustomScope where
  description : String
  sensitivity_level : Nat
  parent_scope : Option String := none
  created : String
deriving Repr, DecidableEq

/-- The in-memory state of `PermissionManager`: the session allow-list, the
loaded custom-scope map (insertion-ordered, as a JS object), and the data
directory. -/
structure PermState where
  allowedScopes : List String
  customScopes : List (String × CustomScope)
  dataDir : String
deriving Repr, DecidableEq

/-- `PermissionManager.isAccessAllowed`. -/
def isAccessAllowed (pm : PermState) (fileScope : String) : Bool :=
  pm.allowedScopes.contains fileScope

/-- `PermissionManager.isValidScope`: built-in or present in the custom map. -/
def isValidScope (pm : PermState) (scope : String) : Bool :=
  isBuiltInScope scope || (pm.customScopes.find? (fun e => e.1 == scope)).isSome

/-- The path of the custom-scope document:
`<dataDir>/.scopes/custom-scopes.json`. -/
def customScopesPath (pm : PermState) : String :=
  joinPath pm.dataDir ".scopes/custom-scopes.json"

/-- JS object update `m[k] = v`: replace in place when the key exists, else
append. -/
def setAssoc (m : List (String × CustomScope)) (k : String) (v : CustomScope) :
    List (String × CustomScope) :=
  if (m.find? (fun e => e.1 == k)).isSome then
    m.map (fun e => if e.1 == k then (k, v) else e)
  else
    m ++ [(k, v)]

/-- JS object delete `delete m[k]`. -/
def delAssoc (m : List (String × CustomScope)) (k : String) :
    List (String × CustomScope) :=
  m.filter (fun e => e.1 != k)

/-- `CustomScopeSchema.parse` on an already-shaped object: nonempty
description, sensitivity between 1 and 10. -/
def validCustomScope (s : CustomScope) : Bool :=
  s.description.length ≥ 1 && 1 ≤ s.sensitivity_level && s.sensitivity_level ≤ 10

/-- The parent-scope guard of `saveCustomScope`
(JS `validatedScope.parent_scope && !this.isValidScope(...)`). -/
def parentScopeInvalid (pm : PermState) (s : CustomScope) : Bool :=
  match jsTruthy s.parent_scope with
  | some p => !(isValidScope pm p)
  | none => false

/-- JS `Array.join(", ")`. -/
def joinComma : List String → String
  | [] => ""
  | [x] => x
  | x :: y :: xs => x ++ ", " ++ joinComma (y :: xs)

/-- `PermissionManager.saveCustomScopesToFile`: ensure the `.scopes` directory
and write the JSON serialization of the whole map (`jsonEnc`) directly to the
destination with `fs.writeFile`. -/
def saveCustomScopesToFile (jsonEnc : List (String × CustomScope) → String)
    (pm : PermState) : List FsOp :=
  [FsOp.ensureDir (dirnameStr (customScopesPath pm)),
   FsOp.write (customScopesPath pm) (jsonEnc pm.customScopes)]

/-- `PermissionManager.saveCustomScope`: reject built-in-name collisions,
schema violations and unknown parents; otherwise update the map, persist it via
`saveCustomScopesToFile`, and create the scope's backing directory. -/
def saveCustomScope (jsonEnc : List (String × CustomScope) → String)
    (pm : PermState) (name : String) (scope : CustomScope) :
    List FsOp × Except String PermState :=
  if isBuiltInScope name then
    ([], Except.error ("Cannot create custom scope " ++ squote ++ name ++ squote
      ++ ": conflicts with built-in scope"))
  else if ¬ validCustomScope scope then
    ([], Except.error "Invalid custom scope")
  else if parentScopeInvalid pm scope then
    ([], Except.error ("Invalid parent scope: " ++ (jsTruthy scope.parent_scope).getD ""))
  else
    (saveCustomScopesToFile jsonEnc
        { pm with customScopes := setAssoc pm.customScopes name scope }
        ++ [FsOp.ensureDir (joinPath pm.dataDir name)],
      Except.ok { pm with customScopes := setAssoc pm.customScopes name scope })

/-- `PermissionManager.deleteCustomScope`: reject built-ins, unknown names,
scopes still referenced as a parent, and non-empty directories (`dirListing` is
the `fs.readdir` result, `none` when the directory does not exist); otherwise
remove the empty directory, delete the entry and persist the map. -/
def deleteCustomScope (jsonEnc : List (String × CustomScope) → String)
    (pm : PermState) (name : String) (dirListing : Option (List String)) :
    List FsOp × Except String PermState :=
  if isBuiltInScope name then
    ([], Except.error ("Cannot delete built-in scope " ++ squote ++ name ++ squote))
  else if ¬ (pm.customScopes.find? (fun e => e.1 == name)).isSome then
    ([], Except.error ("Custom scope " ++ squote ++ name ++ squote ++ " does not exist"))
  else
    let dependents := (pm.customScopes.filter (fun e => e.2.parent_scope == some name)).map
      (fun e => e.1)
    if 0 < dependents.length then
      ([], Except.error ("Cannot delete scope " ++ squote ++ name ++ squote
        ++ ": it is referenced by: " ++ joinComma dependents))
    else
      match dirListing with
      | some files =>
        if 0 < files.length then
          ([], Except.error ("Cannot delete scope " ++ squote ++ name ++ squote
            ++ ": directory contains " ++ toString files.length ++ " files. Delete them first."))
        else
          ([FsOp.remove (joinPath pm.dataDir name)]
              ++ saveCustomScopesToFile jsonEnc
                { pm with customScopes := delAssoc pm.customScopes name },
            Except.ok { pm with customScopes := delAssoc pm.customScopes name })
      | none =>
        (saveCustomScopesToFile jsonEnc
            { pm with customScopes := delAssoc pm.customScopes name },
          Except.ok { pm with customScopes := delAssoc pm.customScopes name })

/-- The temp-write-then-rename discipline used by `writeMarkdownFile` for
records: the destination is never written directly; it is only established by
renaming a fully written `<dest>.tmp` over it. -/
def atomicDiscipline (dest : String) (ops : List FsOp) : Prop :=
  (∀ c, FsOp.write dest c ∉ ops) ∧
  ∃ c, FsOp.write (dest ++ ".tmp") c ∈ ops ∧ FsOp.move (dest ++ ".tmp") dest ∈ ops

/-- C4 counterexample: creating the custom scope `work` persists the map with a
direct `fs.writeFile` to `data/.scopes/custom-scopes.json` — not via the
temp-write-then-rename discipline records use — so the persistence trace
violates the discipline at this concrete input. -/
theorem saveCustomScope_not_atomic :
    ¬ atomicDiscipline "data/.scopes/custom-scopes.json"
      ((saveCustomScope (fun _ => "{}") ⟨["public"], [], "data"⟩ "work"
        ⟨"Work stuff", 5, none, "2024-01-01T00:00:00Z"⟩).1) := by
  intro h
  exact h.1 "{}" (by decide)

/-- C4 (amended): every successful mutation of the custom-scope map
(`saveCustomScope`, `deleteCustomScope`) persists the whole document in one
direct full-document `fs.writeFile` of the serialized updated map — the write
targets the destination itself and no rename over the destination occurs, so
the persistence is a full rewrite (never a merge) but does not use the
temp-write-then-rename discipline of record writes. -/
theorem customScope_persistence_direct_write
    (jsonEnc : List (String × CustomScope) → String) (pm : PermState)
    (name : String) (scope : CustomScope) (dirListing : Option (List String)) :
    (∀ ops pm', saveCustomScope jsonEnc pm name scope = (ops, Except.ok pm') →
      pm'.customScopes = setAssoc pm.customScopes name scope ∧
      ops = [FsOp.ensureDir (dirnameStr (customScopesPath pm)),
             FsOp.write (customScopesPath pm) (jsonEnc pm'.customScopes),
             FsOp.ensureDir (joinPath pm.dataDir name)] ∧
      ¬ atomicDiscipline (customScopesPath pm) ops) ∧
    (∀ ops pm', deleteCustomScope jsonEnc pm name dirListing = (ops, Except.ok pm') →
      pm'.customScopes = delAssoc pm.customScopes name ∧
      FsOp.write (customScopesPath pm) (jsonEnc pm'.customScopes) ∈ ops ∧
      ¬ atomicDiscipline (customScopesPath pm) ops) := by
  constructor
  · intro ops pm' h
    rw [saveCustomScope.eq_def] at h
    repeat' split at h
    all_goals first
      | (exact Except.noConfusion (congrArg Prod.snd h))
      | (simp only [Prod.mk.injEq] at h
         obtain ⟨hops, hpm⟩ := h
         obtain rfl := Except.ok.inj hpm
         refine ⟨rfl, ?_, ?_⟩
         · rw [← hops]; rfl
         · intro hdisc
           exact hdisc.1 (jsonEnc (setAssoc pm.customScopes name scope))
             (by rw [← hops]; simp [saveCustomScopesToFile, customScopesPath]))
  · intro ops pm' h
    rw [deleteCustomScope.eq_def] at h
    by_cases h1 : isBuiltInScope name
    · rw [if_pos h1] at h
      exact Except.noConfusion (congrArg Prod.snd h)
    · rw [if_neg h1] at h
      by_cases h2 : ¬ (pm.customScopes.find? (fun e => e.1 == name)).isSome
      · rw [if_pos h2] at h
        exact Except.noConfusion (congrArg Prod.snd h)
      · rw [if_neg h2] at h
        by_cases h3 : 0 < ((pm.customScopes.filter
            (fun e => e.2.parent_scope == some name)).map (fun e => e.1)).length
        · rw [if_pos h3] at h
          exact Except.noConfusion (congrArg Prod.snd h)
        · rw [if_neg h3] at h
          cases dirListing with
          | some files =>
            simp only [] at h
            by_cases h4 : 0 < files.length
            · rw [if_pos h4] at h
              exact Except.noConfusion (congrArg Prod.snd h)
            · rw [if_neg h4] at h
              simp only [Prod.mk.injEq] at h
              obtain ⟨hops, hpm⟩ := h
              obtain rfl := Except.ok.inj hpm
              refine ⟨rfl, ?_, ?_⟩
              · rw [← hops]; simp [saveCustomScopesToFile, customScopesPath]
              · intro hdisc
                exact hdisc.1 (jsonEnc (delAssoc pm.customScopes name))
                  (by rw [← hops]; simp [saveCustomScopesToFile, customScopesPath])
          | none =>
            simp only [] at h
            simp only [Prod.mk.injEq] at h
            obtain ⟨hops, hpm⟩ := h
            obtain rfl := Except.ok.inj hpm
            refine ⟨rfl, ?_, ?_⟩
            · rw [← hops]; simp [saveCustomScopesToFile, customScopesPath]
            · intro hdisc
              exact hdisc.1 (jsonEnc (delAssoc pm.customScopes name))
                (by rw [← hops]; simp [saveCustomScopesToFile, customScopesPath])

/-- Witness for C4's amended theorem: the concrete `work` creation yields
exactly the direct-write trace. -/
theorem customScope_persistence_direct_write_witness :
    (saveCustomScope (fun _ => "{}") ⟨["public"], [], "data"⟩ "work"
        ⟨"Work stuff", 5, none, "2024-01-01T00:00:00Z"⟩).1
      = [FsOp.ensureDir "data/.scopes",
         FsOp.write "data/.scopes/custom-scopes.json" "{}",
         FsOp.ensureDir "data/work"] := by
  have h := (customScope_persistence_direct_write (fun _ => "{}")
    ⟨["public"], [], "data"⟩ "work" ⟨"Work stuff", 5, none, "2024-01-01T00:00:00Z"⟩ none).1
    (saveCustomScope (fun _ => "{}") ⟨["public"], [], "data"⟩ "work"
      ⟨"Work stuff", 5, none, "2024-01-01T00:00:00Z"⟩).1
    ⟨["public"], [("work", ⟨"Work stuff", 5, none, "2024-01-01T00:00:00Z"⟩)], "data"⟩
    rfl
  rw [h.2.1]
  rfl

/- ## Tool layer: `savePersonalInfo` and `deletePersonalInfo`
     (`src/tools/personalInfo/*.ts`, `src/core/Validation.ts`) -/

/-- The access-denied error of `validateScopeAccess`. -/
def accessDeniedMsg (scope : String) : String :=
  "Access denied: scope " ++ squote ++ scope ++ squote ++ " is not allowed"

/-- The invalid-scope error of `validateScopeExists`. -/
def invalidScopeMsg (scope : String) : String :=
  "Invalid scope: " ++ squote ++ scope ++ squote

/-- Record-level filesystem effects performed by the personal-info tools
(`createBackup`, `writeMarkdownFile`, `deleteFile`).  The byte-level shape of
`writeMarkdownFile` is verified separately. -/
inductive StoreOp where
  | backup (path : String)
  | writeRec (path : String) (file : PersonalInfoFile)
  | removeRec (path : String)
deriving Repr, DecidableEq

/-- Context of a save call: the data directory, permission state, the parsed
view of the record files (path to record, the level at which
`fileExists`/`readMarkdownFile` operate), the backup toggle and the session
gate's inputs. -/
structure SaveCtx where
  dataDir : String
  perm : PermState
  store : List (String × PersonalInfoFile)
  backupEnabled : Bool
  encEnabled : Bool
  otpEnabled : Bool
  session : Option OTPSession
  nowMs : Nat
  encryptionKey : Option String

/-- Parsed-store lookup (`fileExists` / `readMarkdownFile`). -/
def fsLookup (store : List (String × PersonalInfoFile)) (p : String) :
    Option PersonalInfoFile :=
  (store.find? (fun e => e.1 == p)).map (fun e => e.2)

/-- `SavePersonalInfoInputSchema`. -/
structure SaveInput where
  category : String
  subcategory : Option String := none
  content : String
  scope : String
  tags : Option (List String) := none
deriving Repr, DecidableEq

/-- The `fileData` record built by `savePersonalInfo`: `created` kept from the
existing file when present and truthy (JS `existing?.frontmatter.created || now`),
`updated` always the current time, tags from the input or else the existing
file or else empty. -/
def buildSaveRecord (ctx : SaveCtx) (input : SaveInput) (nowIso : String) :
    PersonalInfoFile :=
  { frontmatter :=
      { scope := input.scope
        category := input.category
        subcategory := input.subcategory
        created := jsOrS ((fsLookup ctx.store (getFilePath ctx.dataDir input.scope
            input.category input.subcategory)).map
            (fun e => e.frontmatter.created)) nowIso
        updated := nowIso
        tags :=
          match input.tags with
          | some t => t
          | none =>
            match fsLookup ctx.store (getFilePath ctx.dataDir input.scope
                input.category input.subcategory) with
            | some e => e.frontmatter.tags
            | none => [] }
    content := input.content
    filePath := "" }

/-- `savePersonalInfo` from `src/tools/personalInfo/savePersonalInfo.ts`:
compute the gate's decryption options (propagating its errors), check scope
access then validity, then build the record — `created` kept from the existing
file when present (JS `existing?.frontmatter.created || now`), `updated` always
the current time, tags from the input or else the existing file — optionally
back up, and write.  `nowIso` is `new Date().toISOString()`. -/
def savePersonalInfo (ctx : SaveCtx) (input : SaveInput) (nowIso : String) :
    List StoreOp × Except String String :=
  match getDecryptionOptions ctx.encEnabled ctx.otpEnabled ctx.session ctx.nowMs
      ctx.encryptionKey with
  | Except.error e => ([], Except.error e)
  | Except.ok _ =>
    if ¬ isAccessAllowed ctx.perm input.scope then
      ([], Except.error (accessDeniedMsg input.scope))
    else if ¬ isValidScope ctx.perm input.scope then
      ([], Except.error (invalidScopeMsg input.scope))
    else
      (((if (fsLookup ctx.store (getFilePath ctx.dataDir input.scope input.category
              input.subcategory)).isSome && ctx.backupEnabled then
          [StoreOp.backup (getFilePath ctx.dataDir input.scope input.category
            input.subcategory)]
        else []) ++
        [StoreOp.writeRec (getFilePath ctx.dataDir input.scope input.category
            input.subcategory)
          (buildSaveRecord ctx input nowIso)]),
        Except.ok (if (fsLookup ctx.store (getFilePath ctx.dataDir input.scope input.category
            input.subcategory)).isSome then "updated" else "created"))

/-- A record file as the directory scan sees it: the scope directory it sits in
and its parsed content. -/
structure DirEntry where
  dir : String
  file : PersonalInfoFile
deriving Repr, DecidableEq

/-- Context of a delete call. -/
structure DeleteCtx where
  dataDir : String
  perm : PermState
  dirStore : List DirEntry
  backupEnabled : Bool

/-- `FileManager.listFiles`: for each allowed scope, the parse results of the
`*.md` files in that scope's directory (unparseable files are skipped — here
the store holds the parseable ones). -/
def listFiles (store : List DirEntry) (allowedScopes : List String) :
    List PersonalInfoFile :=
  allowedScopes.flatMap (fun scope =>
    (store.filter (fun e => e.dir == scope)).map (fun e => e.file))

/-- `FileManager.findFilesByCategory`: the listed files whose frontmatter
category matches, and whose subcategory matches when a truthy one is given. -/
def findFilesByCategory (store : List DirEntry) (allowedScopes : List String)
    (category : String) (subcategory : Option String) : List PersonalInfoFile :=
  (listFiles store allowedScopes).filter (fun f =>
    f.frontmatter.category == category &&
    (match subcategory with
     | none => true
     | some s => if s = "" then true else f.frontmatter.subcategory == some s))

/-- `deletePersonalInfo` from `src/tools/personalInfo/deletePersonalInfo.ts`:
find the matching files among the allowed scope directories; error when none;
otherwise, for each file whose frontmatter scope passes `isAccessAllowed`,
optionally back it up and remove it (files with disallowed scopes are silently
skipped). -/
def deletePersonalInfo (ctx : DeleteCtx) (category : String)
    (subcategory : Option String) : List StoreOp × Except String String :=
  if (findFilesByCategory ctx.dirStore ctx.perm.allowedScopes category subcategory).length
      = 0 then
    ([], Except.error ("No " ++ category ++ " information found to delete"))
  else
    ((findFilesByCategory ctx.dirStore ctx.perm.allowedScopes category subcategory).flatMap
        (fun f =>
          if isAccessAllowed ctx.perm f.frontmatter.scope then
            (if ctx.backupEnabled then
              [StoreOp.backup (getFilePath ctx.dataDir f.frontmatter.scope
                f.frontmatter.category f.frontmatter.subcategory)]
            else []) ++
            [StoreOp.removeRec (getFilePath ctx.dataDir f.frontmatter.scope
              f.frontmatter.category f.frontmatter.subcategory)]
          else []),
      Except.ok ("deleted "
        ++ toString ((findFilesByCategory ctx.dirStore ctx.perm.allowedScopes category
            subcategory).filter
            (fun f => isAccessAllowed ctx.perm f.frontmatter.scope)).length
        ++ " " ++ category ++ " file(s)."))

/-- C8: on every save that passes the gate and the scope checks, the written
record's `updated` is the time of the current write; when a record already
exists at the target path (with the nonempty `created` every record read
through the schema has), the written `created` equals the existing record's
`created`; on a first write `created` is also the current time. -/
theorem savePersonalInfo_timestamps (ctx : SaveCtx) (input : SaveInput) (nowIso : String)
    (o : Option DecryptionOptions)
    (hgate : getDecryptionOptions ctx.encEnabled ctx.otpEnabled ctx.session ctx.nowMs
      ctx.encryptionKey = Except.ok o)
    (hacc : isAccessAllowed ctx.perm input.scope = true)
    (hvalid : isValidScope ctx.perm input.scope = true) :
    (savePersonalInfo ctx input nowIso).1.getLast?
        = some (StoreOp.writeRec (getFilePath ctx.dataDir input.scope input.category
            input.subcategory) (buildSaveRecord ctx input nowIso)) ∧
    (buildSaveRecord ctx input nowIso).frontmatter.updated = nowIso ∧
    (∀ ex, fsLookup ctx.store (getFilePath ctx.dataDir input.scope input.category
        input.subcategory) = some ex →
      ex.frontmatter.created ≠ "" →
      (buildSaveRecord ctx input nowIso).frontmatter.created = ex.frontmatter.created) ∧
    (fsLookup ctx.store (getFilePath ctx.dataDir input.scope input.category
        input.subcategory) = none →
      (buildSaveRecord ctx input nowIso).frontmatter.created = nowIso) := by
  refine ⟨?_, rfl, ?_, ?_⟩
  · simp only [savePersonalInfo, hgate, hacc, hvalid, not_true_eq_false, if_false,
      Bool.false_eq_true, List.getLast?_concat]
  · intro ex hex hne
    simp [buildSaveRecord, hex, jsOrS, hne]
  · intro hnone
    simp [buildSaveRecord, hnone, jsOrS]

/-- Witness for C8 at a concrete update: the existing record's `created` is
kept and `updated` becomes the write time. -/
theorem savePersonalInfo_timestamps_witness :
    (buildSaveRecord
        ⟨"data", ⟨["public"], [], "data"⟩,
          [("data/public/phone.md",
            ⟨⟨"public", "phone", none, "2020-06-01T00:00:00Z", "2020-06-01T00:00:00Z", []⟩,
              "old", ""⟩)],
          false, false, false, none, 0, none⟩
        ⟨"phone", none, "555-1234", "public", none⟩
        "2025-01-01T00:00:00Z").frontmatter.created = "2020-06-01T00:00:00Z" ∧
    (buildSaveRecord
        ⟨"data", ⟨["public"], [], "data"⟩,
          [("data/public/phone.md",
            ⟨⟨"public", "phone", none, "2020-06-01T00:00:00Z", "2020-06-01T00:00:00Z", []⟩,
              "old", ""⟩)],
          false, false, false, none, 0, none⟩
        ⟨"phone", none, "555-1234", "public", none⟩
        "2025-01-01T00:00:00Z").frontmatter.updated = "2025-01-01T00:00:00Z" := by
  have h := savePersonalInfo_timestamps
    ⟨"data", ⟨["public"], [], "data"⟩,
      [("data/public/phone.md",
        ⟨⟨"public", "phone", none, "2020-06-01T00:00:00Z", "2020-06-01T00:00:00Z", []⟩,
          "old", ""⟩)],
      false, false, false, none, 0, none⟩
    ⟨"phone", none, "555-1234", "public", none⟩
    "2025-01-01T00:00:00Z" none rfl (by decide) (by decide)
  refine ⟨?_, h.2.1⟩
  exact h.2.2.1
    ⟨⟨"public", "phone", none, "2020-06-01T00:00:00Z", "2020-06-01T00:00:00Z", []⟩, "old", ""⟩
    (by decide) (by decide)

/-- C3 (amended): writes targeting a scope outside the allow-list fail with the
access-denied error and perform no filesystem operation (provided the session
gate itself did not fail first — gate errors take precedence); deletes never
back up or remove a file whose frontmatter scope is outside the allow-list
(every performed operation belongs to a found file with an allowed scope), and
when no accessible file matches they fail with a not-found error — not an
access-denied error; reads/searches/lists only ever draw files from allowed
scope directories. -/
theorem authorization_outside_allow_list :
    (∀ (ctx : SaveCtx) (input : SaveInput) (nowIso : String) (o : Option DecryptionOptions),
      getDecryptionOptions ctx.encEnabled ctx.otpEnabled ctx.session ctx.nowMs
          ctx.encryptionKey = Except.ok o →
      isAccessAllowed ctx.perm input.scope = false →
      savePersonalInfo ctx input nowIso = ([], Except.error (accessDeniedMsg input.scope))) ∧
    (∀ (ctx : DeleteCtx) (category : String) (subcategory : Option String) (op : StoreOp),
      op ∈ (deletePersonalInfo ctx category subcategory).1 →
      ∃ f, f ∈ findFilesByCategory ctx.dirStore ctx.perm.allowedScopes category subcategory ∧
        isAccessAllowed ctx.perm f.frontmatter.scope = true ∧
        (op = StoreOp.backup (getFilePath ctx.dataDir f.frontmatter.scope
            f.frontmatter.category f.frontmatter.subcategory) ∨
         op = StoreOp.removeRec (getFilePath ctx.dataDir f.frontmatter.scope
            f.frontmatter.category f.frontmatter.subcategory))) ∧
    (∀ (ctx : DeleteCtx) (category : String) (subcategory : Option String),
      findFilesByCategory ctx.dirStore ctx.perm.allowedScopes category subcategory = [] →
      deletePersonalInfo ctx category subcategory
        = ([], Except.error ("No " ++ category ++ " information found to delete"))) ∧
    (∀ (store : List DirEntry) (allowed : List String) (f : PersonalInfoFile),
      f ∈ listFiles store allowed →
      ∃ e ∈ store, e.dir ∈ allowed ∧ e.file = f) := by
  refine ⟨?_, ?_, ?_, ?_⟩
  · intro ctx input nowIso o hgate hacc
    simp [savePersonalInfo, hgate, hacc]
  · intro ctx category subcategory op hop
    by_cases hlen : (findFilesByCategory ctx.dirStore ctx.perm.allowedScopes category
        subcategory).length = 0
    · simp [deletePersonalInfo, hlen] at hop
    · simp only [deletePersonalInfo, if_neg hlen] at hop
      rw [List.mem_flatMap] at hop
      obtain ⟨f, hf, hopf⟩ := hop
      by_cases ha : isAccessAllowed ctx.perm f.frontmatter.scope = true
      · refine ⟨f, hf, ha, ?_⟩
        rw [if_pos ha] at hopf
        rcases List.mem_append.mp hopf with h | h
        · by_cases hb : ctx.backupEnabled = true
          · rw [if_pos hb] at h
            simp at h
            exact Or.inl h
          · rw [if_neg hb] at h
            simp at h
        · simp at h
          exact Or.inr h
      · rw [if_neg ha] at hopf
        simp at hopf
  · intro ctx category subcategory he
    simp [deletePersonalInfo, he]
  · intro store allowed f hf
    rw [listFiles, List.mem_flatMap] at hf
    obtain ⟨scope, hsc, hf2⟩ := hf
    rw [List.mem_map] at hf2
    obtain ⟨e, he, rfl⟩ := hf2
    have hmem := List.mem_filter.mp he
    refine ⟨e, hmem.1, ?_, rfl⟩
    have hd : e.dir = scope := by simpa using hmem.2
    rw [hd]
    exact hsc

/-- Witness for C3's amended theorem: a concrete denied write fails with the
access-denied error and performs no operation. -/
theorem authorization_outside_allow_list_witness :
    savePersonalInfo
        ⟨"data", ⟨["public"], [], "data"⟩, [], false, false, false, none, 0, none⟩
        ⟨"phone", none, "555-1234", "personal", none⟩ "2025-01-01T00:00:00Z"
      = ([], Except.error (accessDeniedMsg "personal")) :=
  authorization_outside_allow_list.1
    ⟨"data", ⟨["public"], [], "data"⟩, [], false, false, false, none, 0, none⟩
    ⟨"phone", none, "555-1234", "personal", none⟩ "2025-01-01T00:00:00Z" none
    rfl (by decide)

/-- C3 counterexample: with only `public` allowed and the only `phone` record
sitting in the disallowed `personal` scope directory, the delete call does not
fail with the access-denied error the claim requires — it fails with a
not-found error (and performs no operation). -/
theorem deletePersonalInfo_not_access_denied :
    deletePersonalInfo
        ⟨"data", ⟨["public"], [], "data"⟩,
          [⟨"personal",
            ⟨⟨"personal", "phone", none, "2024-01-01T00:00:00Z", "2024-01-01T00:00:00Z", []⟩,
              "555-1234", ""⟩⟩],
          false⟩
        "phone" none
      = ([], Except.error "No phone information found to delete") ∧
    "No phone information found to delete" ≠ accessDeniedMsg "personal" := by
  constructor
  · rfl
  · decide
